import Mathlib

/-!
Shallow embedding of the suji static-site-generator pipeline
(src/main.rs) together with proofs about its claims: frontmatter
enrichment for blog posts, URL resolution, the navbar indexer, the
blogpost index and its tag-count view, tag-page expansion, the sitemap
indexer and the URL-to-output-path mapper.
-/

namespace Suji

/-- Model of `serde_json::Value` restricted to the shapes the pipeline
touches (strings, integer numbers, booleans, arrays, null). -/
inductive JsonValue where
  | str (s : String)
  | int (n : Int)
  | bool (b : Bool)
  | arr (xs : List JsonValue)
  | null

/-- `Value::as_i64`: `some` exactly on integer numbers. -/
def JsonValue.as_i64 : JsonValue → Option Int
  | .int n => some n
  | _ => none

/-- `Value::as_str`: `some` exactly on strings. -/
def JsonValue.as_str : JsonValue → Option String
  | .str s => some s
  | _ => none

/-- `Value::as_array`. -/
def JsonValue.as_array : JsonValue → Option (List JsonValue)
  | .arr xs => some xs
  | _ => none

/-- `Value::as_bool`. -/
def JsonValue.as_bool : JsonValue → Option Bool
  | .bool b => some b
  | _ => none

/-- The open-ended key/value metadata bag (`HashMap<String, Value>`),
modelled as an association list with unique keys maintained by
`bagInsert`. -/
abbrev Bag := List (String × JsonValue)

/-- `HashMap::get`. -/
def bagGet (bag : Bag) (k : String) : Option JsonValue :=
  (bag.find? (fun p => p.1 == k)).map (fun p => p.2)

/-- `HashMap::insert`: replaces any existing binding of the key. -/
def bagInsert (bag : Bag) (k : String) (v : JsonValue) : Bag :=
  bag.filter (fun p => p.1 != k) ++ [(k, v)]

/-- Fetch a bag value and require it to be a string
(`.get(k).…as_str()`). -/
def getStr (bag : Bag) (k : String) : Option String :=
  (bagGet bag k).bind JsonValue.as_str

/-- Navbar placement directive (struct `NavbarConfig`). -/
structure NavbarConfig where
  index : Nat
  group : Option String
  is_primary : Bool
deriving DecidableEq

/-- Frontmatter metadata (struct `DynamicContentMetadata`). -/
structure DynamicContentMetadata where
  route : String
  title : String
  template : Option String
  navbar : Option NavbarConfig
  markdown : Bool
  stuff : Bag
  og_title : String
  og_type : String
  og_description : String
  exclude_from_sitemap : Bool

/-- The content kinds (enum `DynamicContentType`). -/
inductive DynamicContentType where
  | SinglePage
  | Blogpost
  | BlogpostTagPage
  | BlogpostArchivePage
  | BlogpostRssPage
  | SitemapPage
deriving DecidableEq

/-- The slice of the immutable `Config` the pipeline logic reads. -/
structure Config where
  sitename : String
  routes : List (String × String)
  blogpost_template : String
  site_url : String

/-- A resolved URL pair (struct `URL`). -/
structure URL where
  url : String
  absolute : String
deriving DecidableEq

/-- `str::contains(char)`. -/
def containsChar (s : String) (c : Char) : Bool := s.data.contains c

/-- Strip a pattern from the front of a text: `some` the rest when the
pattern is a prefix. -/
def stripPre? : List Char → List Char → Option (List Char)
  | [], s => some s
  | _ :: _, [] => none
  | p :: ps, c :: cs => if p = c then stripPre? ps cs else none

/-- `str::replace` scanning loop over the characters, fuelled by the
text length (each step consumes at least one character, so any fuel of
at least the text's length gives Rust's behaviour): replace every
non-overlapping occurrence of the pattern left to right, without
rescanning the replacement. -/
def replaceAux (pat rep : List Char) : Nat → List Char → List Char
  | 0, s => s
  | fuel + 1, s =>
    match s with
    | [] => []
    | c :: cs =>
      match stripPre? pat s with
      | some rest => rep ++ replaceAux pat rep fuel rest
      | none => c :: replaceAux pat rep fuel cs

/-- `str::replace(pat, rep)` (patterns in this pipeline are never
empty). -/
def replaceStr (s pat rep : String) : String :=
  String.mk (replaceAux pat.data rep.data s.data.length s.data)

/-- `str::split(sep)` accumulation loop. -/
def splitCharAux (sep : Char) : List Char → List Char → List String
  | [], acc => [String.mk acc.reverse]
  | c :: cs, acc =>
    if c = sep then String.mk acc.reverse :: splitCharAux sep cs []
    else splitCharAux sep cs (c :: acc)

/-- Rust's `str::split(sep).collect::<Vec<_>>()`. -/
def splitChar (sep : Char) (s : String) : List String :=
  splitCharAux sep s.data []

/-- The opening-brace character, written by code point to keep braces
out of string literals. -/
def lbrace : Char := Char.ofNat 123

/-- The closing-brace character. -/
def rbrace : Char := Char.ofNat 125

/-- `format!("\x7b\x7d", key)` of the brace-delimited token. -/
def braceToken (key : String) : String :=
  String.singleton lbrace ++ key ++ String.singleton rbrace

/-- One iteration of `url_for_impl`'s replacement loop body: substitute
the integer or string form of the value for the `\x7bkey\x7d` token
(non-integer, non-string values are skipped). -/
def substStep (kv : String × JsonValue) (url : String) : String :=
  match kv.2.as_i64 with
  | some n => replaceStr url (braceToken kv.1) (toString n)
  | none =>
    match kv.2.as_str with
    | some s => replaceStr url (braceToken kv.1) s
    | none => url

/-- `url_for_impl`'s replacement loop: before each entry the loop stops
early when no opening brace is left. -/
def substLoop : List (String × JsonValue) → String → String
  | [], url => url
  | kv :: rest, url =>
    if containsChar url lbrace then substLoop rest (substStep kv url) else url

/-- `Config::routes` lookup (`config.routes.get(route)`). -/
def routeLookup (routes : List (String × String)) (route : String) : Option String :=
  (routes.find? (fun p => p.1 == route)).map (fun p => p.2)

/-- `url_for_impl`: `none` models the two panics (unknown route;
`assert!(!url.contains('\x7b'))` after substitution). -/
def url_for_impl (config : Config) (route : String) (replacements : Bag) : Option URL :=
  match routeLookup config.routes route with
  | none => none
  | some template =>
    if containsChar (substLoop replacements template) lbrace then none
    else some { url := substLoop replacements template
                absolute := config.site_url ++ substLoop replacements template }

/-- `metadata_to_url`. -/
def metadata_to_url (config : Config) (m : DynamicContentMetadata) : Option URL :=
  url_for_impl config m.route m.stuff

/-! ### String comparison as Rust's `Ord` for `String`
Rust compares strings byte-wise on UTF-8, which coincides with
code-point-wise lexicographic comparison. -/

/-- Three-way comparison of naturals. -/
def cmpN (a b : Nat) : Ordering :=
  if a < b then .lt else if a = b then .eq else .gt

/-- Three-way comparison of characters by code point. -/
def cmpChar (a b : Char) : Ordering := cmpN a.toNat b.toNat

/-- Lexicographic three-way comparison of character lists. -/
def cmpChars : List Char → List Char → Ordering
  | [], [] => .eq
  | [], _ :: _ => .lt
  | _ :: _, [] => .gt
  | a :: as, b :: bs =>
    match cmpChar a b with
    | .eq => cmpChars as bs
    | o => o

/-- Rust's `String::cmp`. -/
def cmpStr (a b : String) : Ordering := cmpChars a.data b.data

theorem cmpN_lt {a b : Nat} : cmpN a b = .lt ↔ a < b := by
  unfold cmpN; split_ifs <;> simp_all

theorem cmpN_eq {a b : Nat} : cmpN a b = .eq ↔ a = b := by
  unfold cmpN; split_ifs <;> simp_all <;> omega

theorem cmpN_gt {a b : Nat} : cmpN a b = .gt ↔ b < a := by
  unfold cmpN; split_ifs <;> simp_all <;> omega

theorem cmpN_self (a : Nat) : cmpN a a = .eq := cmpN_eq.mpr rfl

theorem cmpChars_swap (a b : List Char) : cmpChars b a = (cmpChars a b).swap := by
  induction a generalizing b with
  | nil => cases b <;> rfl
  | cons x xs ih =>
    cases b with
    | nil => rfl
    | cons y ys =>
      simp only [cmpChars]
      rcases Nat.lt_trichotomy x.toNat y.toNat with h | h | h
      · rw [show cmpChar x y = .lt from cmpN_lt.mpr h,
          show cmpChar y x = .gt from cmpN_gt.mpr h]
        rfl
      · rw [show cmpChar x y = .eq from cmpN_eq.mpr h,
          show cmpChar y x = .eq from cmpN_eq.mpr h.symm]
        exact ih ys
      · rw [show cmpChar x y = .gt from cmpN_gt.mpr h,
          show cmpChar y x = .lt from cmpN_lt.mpr h]
        rfl

theorem cmpChars_trans {a b c : List Char} (h1 : cmpChars a b ≠ .gt)
    (h2 : cmpChars b c ≠ .gt) : cmpChars a c ≠ .gt := by
  induction a generalizing b c with
  | nil => cases c <;> simp [cmpChars]
  | cons x xs ih =>
    cases b with
    | nil => simp [cmpChars] at h1
    | cons y ys =>
      cases c with
      | nil => simp [cmpChars] at h2
      | cons z zs =>
        simp only [cmpChars] at h1 h2 ⊢
        rcases hxy : cmpChar x y with _ | _ | _ <;> rw [hxy] at h1 <;>
          rcases hyz : cmpChar y z with _ | _ | _ <;> rw [hyz] at h2 <;>
            try exact absurd rfl (by assumption)
        · rw [show cmpChar x z = .lt from
            cmpN_lt.mpr (Nat.lt_trans (cmpN_lt.mp hxy) (cmpN_lt.mp hyz))]
          simp
        · rw [show cmpChar x z = .lt from
            cmpN_lt.mpr ((cmpN_eq.mp hyz) ▸ (cmpN_lt.mp hxy))]
          simp
        · rw [show cmpChar x z = .lt from by
            unfold cmpChar at *
            rw [cmpN_eq.mp hxy]
            exact hyz]
          simp
        · rw [show cmpChar x z = .eq from by
            unfold cmpChar at *
            rw [cmpN_eq.mp hxy]
            exact hyz]
          exact ih h1 h2

/-- `a ≤ b` for Rust string ordering. -/
def strLe (a b : String) : Prop := cmpStr a b ≠ .gt

instance : DecidableRel strLe := fun a b => instDecidableNot

instance : IsTotal String strLe :=
  ⟨fun a b => by
    unfold strLe cmpStr
    rcases h : cmpChars a.data b.data with _ | _ | _
    · exact Or.inl (by simp [h])
    · exact Or.inl (by simp [h])
    · exact Or.inr (by rw [cmpChars_swap a.data b.data, h]; simp [Ordering.swap])⟩

instance : IsTrans String strLe := ⟨fun _ _ _ => cmpChars_trans⟩

/-! ### Zero-padded decimal rendering of date components -/

/-- The decimal digit character for `n < 10`. -/
def digitCharN (n : Nat) : Char := Char.ofNat (48 + n)

/-- The `k` least significant decimal digits of `n`, zero-padded to
exactly `k` characters (for `n < 10 ^ k` this is the zero-padded
numeral of `n`). -/
def padDigits : Nat → Nat → List Char
  | 0, _ => []
  | k + 1, n => padDigits k (n / 10) ++ [digitCharN (n % 10)]

/-- The characters of a zero-padded `YYYY/MM/DD` date. -/
def dateChars (y m d : Nat) : List Char :=
  padDigits 4 y ++ '/' :: (padDigits 2 m ++ '/' :: padDigits 2 d)

/-- A zero-padded `YYYY/MM/DD` date string. -/
def dateString (y m d : Nat) : String := String.mk (dateChars y m d)

theorem padDigits_length (k n : Nat) : (padDigits k n).length = k := by
  induction k generalizing n with
  | zero => rfl
  | succ k ih => simp [padDigits, ih]

theorem cmpChars_append {a b : List Char} (c d : List Char)
    (h : a.length = b.length) :
    cmpChars (a ++ c) (b ++ d) = (cmpChars a b).then (cmpChars c d) := by
  induction a generalizing b with
  | nil =>
    cases b with
    | nil => simp [cmpChars, Ordering.then]
    | cons y ys => simp at h
  | cons x xs ih =>
    cases b with
    | nil => simp at h
    | cons y ys =>
      simp only [List.cons_append, cmpChars]
      rcases hxy : cmpChar x y with _ | _ | _ <;> simp [Ordering.then]
      exact ih (by simpa using h)

theorem cmpChars_single (a b : Char) : cmpChars [a] [b] = cmpChar a b := by
  rcases h : cmpChar a b with _ | _ | _ <;> simp [cmpChars, h]

theorem cmpChars_cons_same (c : Char) (r1 r2 : List Char) :
    cmpChars (c :: r1) (c :: r2) = cmpChars r1 r2 := by
  simp [cmpChars, cmpChar, cmpN_self]

theorem digitCharN_toNat {n : Nat} (h : n < 10) : (digitCharN n).toNat = 48 + n := by
  interval_cases n <;> rfl

theorem cmpN_shift (c a b : Nat) : cmpN (c + a) (c + b) = cmpN a b := by
  unfold cmpN; split_ifs <;> first | rfl | omega

theorem cmpN_div10 (n m : Nat) :
    cmpN n m = (cmpN (n / 10) (m / 10)).then (cmpN (n % 10) (m % 10)) := by
  unfold cmpN
  split_ifs <;> simp [Ordering.then] <;> omega

theorem cmpChars_padDigits {k n m : Nat} (hn : n < 10 ^ k) (hm : m < 10 ^ k) :
    cmpChars (padDigits k n) (padDigits k m) = cmpN n m := by
  induction k generalizing n m with
  | zero =>
    interval_cases n
    interval_cases m
    rfl
  | succ k ih =>
    have hn10 : n / 10 < 10 ^ k := by
      rw [Nat.div_lt_iff_lt_mul (by norm_num)]
      calc n < 10 ^ (k + 1) := hn
        _ = 10 ^ k * 10 := by ring
    have hm10 : m / 10 < 10 ^ k := by
      rw [Nat.div_lt_iff_lt_mul (by norm_num)]
      calc m < 10 ^ (k + 1) := hm
        _ = 10 ^ k * 10 := by ring
    rw [padDigits, padDigits,
      cmpChars_append _ _ (by rw [padDigits_length, padDigits_length]),
      ih hn10 hm10, cmpChars_single]
    rw [show cmpChar (digitCharN (n % 10)) (digitCharN (m % 10)) = cmpN (n % 10) (m % 10) from by
      unfold cmpChar
      rw [digitCharN_toNat (Nat.mod_lt n (by norm_num)),
        digitCharN_toNat (Nat.mod_lt m (by norm_num)), cmpN_shift]]
    exact (cmpN_div10 n m).symm

theorem cmpChars_dateChars {y1 m1 d1 y2 m2 d2 : Nat}
    (hy1 : y1 < 10000) (hm1 : m1 < 100) (hd1 : d1 < 100)
    (hy2 : y2 < 10000) (hm2 : m2 < 100) (hd2 : d2 < 100) :
    cmpChars (dateChars y1 m1 d1) (dateChars y2 m2 d2) =
      (cmpN y1 y2).then ((cmpN m1 m2).then (cmpN d1 d2)) := by
  unfold dateChars
  rw [cmpChars_append _ _ (by rw [padDigits_length, padDigits_length]),
    cmpChars_padDigits (by exact hy1) (by exact hy2), cmpChars_cons_same,
    cmpChars_append _ _ (by rw [padDigits_length, padDigits_length]),
    cmpChars_padDigits (by exact hm1) (by exact hm2), cmpChars_cons_same,
    cmpChars_padDigits (by exact hd1) (by exact hd2)]

/-- Chronological (year, month, day) order, weakly ascending. -/
def chronoLe (a b : Nat × Nat × Nat) : Prop :=
  a.1 < b.1 ∨ (a.1 = b.1 ∧ (a.2.1 < b.2.1 ∨ (a.2.1 = b.2.1 ∧ a.2.2 ≤ b.2.2)))

theorem cmpN_then_ne_gt {y1 m1 d1 y2 m2 d2 : Nat} :
    (cmpN y1 y2).then ((cmpN m1 m2).then (cmpN d1 d2)) ≠ .gt ↔
      chronoLe (y1, m1, d1) (y2, m2, d2) := by
  unfold cmpN chronoLe
  split_ifs <;> simp [Ordering.then] <;> omega

/-- Lexicographic comparison of zero-padded date strings coincides with
chronological comparison of their (year, month, day) components. -/
theorem dateString_le_iff_chronoLe {y1 m1 d1 y2 m2 d2 : Nat}
    (hy1 : y1 < 10000) (hm1 : m1 < 100) (hd1 : d1 < 100)
    (hy2 : y2 < 10000) (hm2 : m2 < 100) (hd2 : d2 < 100) :
    strLe (dateString y1 m1 d1) (dateString y2 m2 d2) ↔
      chronoLe (y1, m1, d1) (y2, m2, d2) := by
  unfold strLe cmpStr dateString
  rw [show (String.mk (dateChars y1 m1 d1)).data = dateChars y1 m1 d1 from rfl,
    show (String.mk (dateChars y2 m2 d2)).data = dateChars y2 m2 d2 from rfl,
    cmpChars_dateChars hy1 hm1 hd1 hy2 hm2 hd2]
  exact cmpN_then_ne_gt

/-! ### Frontmatter enrichment for blog posts
(`dynamic_content_source_loader`, `DynamicContentType::Blogpost` arm) -/

/-- Rust `format!` with a bare minimum width on a string value
(`format!("\x7b:4\x7d", s)`): left-aligned, padded on the right with
spaces up to the width. -/
def formatWidth (w : Nat) (s : String) : String :=
  s ++ String.mk (List.replicate (w - s.length) ' ')

/-- The `Blogpost` arm of `dynamic_content_source_loader`: force
markdown and the configured template, inject `slug` (the file stem,
passed in), require a string `date` that splits on `/` into exactly
three parts (`none` models the three panics), inject the
width-formatted `year`/`month`/`day`, set the OpenGraph type, and copy
a string `excerpt` into the OpenGraph description. -/
def blogpost_enrich (blogpost_template slug : String)
    (m : DynamicContentMetadata) : Option DynamicContentMetadata :=
  let m1 := { m with
    markdown := true
    template := some blogpost_template
    stuff := bagInsert m.stuff "slug" (.str slug) }
  match bagGet m1.stuff "date" with
  | none => none
  | some v =>
    match v.as_str with
    | none => none
    | some date =>
      match splitChar '/' date with
      | [y, mo, d] =>
        let stuff2 :=
          bagInsert (bagInsert (bagInsert m1.stuff
            "year" (.str (formatWidth 4 y)))
            "month" (.str (formatWidth 2 mo)))
            "day" (.str (formatWidth 2 d))
        let ogd :=
          match bagGet stuff2 "excerpt" with
          | some e => (e.as_str).getD ""
          | none => m1.og_description
        some { m1 with stuff := stuff2, og_type := "article", og_description := ogd }
      | _ => none

/-! ### The blogpost index (`blogpost_indexer`, `BlogpostIndex`) -/

/-- Struct `BlogpostIndexEntry`. -/
structure BlogpostIndexEntry where
  url : String
  slug : String
  title : String
  excerpt : String
  date : String
  year : String
  month : String
  day : String
  tags : List String
  featured : Bool
deriving DecidableEq

/-- Resource `BlogpostIndex`. -/
structure BlogpostIndex where
  entries : List BlogpostIndexEntry
deriving DecidableEq

/-- `Option`-valued `mapM`: the whole list or the first failure, the
panic discipline of the Rust loops. -/
def mapMO (f : α → Option β) : List α → Option (List β)
  | [] => some []
  | a :: l =>
    match f a, mapMO f l with
    | some b, some bs => some (b :: bs)
    | _, _ => none

/-- Projection of one blogpost record into its index entry; `none`
models the `unwrap`/panic calls on `slug`, `date`, `year`, `month`,
`day` and `excerpt`; `tags` and `featured` fall back to safe
defaults. -/
def projectBlogpost (url : URL) (m : DynamicContentMetadata) :
    Option BlogpostIndexEntry :=
  match getStr m.stuff "slug", getStr m.stuff "date", getStr m.stuff "year",
      getStr m.stuff "month", getStr m.stuff "day", getStr m.stuff "excerpt" with
  | some slug, some date, some year, some month, some day, some excerpt =>
    some
      { url := url.url
        slug := slug
        title := m.title
        excerpt := excerpt
        date := date
        year := year
        month := month
        day := day
        tags := (((bagGet m.stuff "tags").getD (.arr [])).as_array.getD []).filterMap
          JsonValue.as_str
        featured := ((bagGet m.stuff "featured").getD (.bool false)).as_bool.getD false }
  | _, _, _, _, _, _ => none

/-- The comparator of `entries.sort_by(|a, b| b.date.cmp(&a.date))` as
a weak order: `a` may precede `b` when `b.date ≤ a.date`. -/
def dateDesc (a b : BlogpostIndexEntry) : Prop := cmpStr b.date a.date ≠ .gt

instance : DecidableRel dateDesc := fun _ _ => instDecidableNot

instance : IsTotal BlogpostIndexEntry dateDesc :=
  ⟨fun a b => (IsTotal.total (r := strLe) b.date a.date).imp id id⟩

instance : IsTrans BlogpostIndexEntry dateDesc :=
  ⟨fun _ _ _ h1 h2 => cmpChars_trans h2 h1⟩

/-- `blogpost_indexer`: filter the blogpost records, project each
(fatal on bad metadata), sort descending by the `date` string. -/
def blogpost_indexer
    (records : List (DynamicContentType × URL × DynamicContentMetadata)) :
    Option BlogpostIndex :=
  match mapMO (fun r => projectBlogpost r.2.1 r.2.2)
      (records.filter (fun r => r.1 == DynamicContentType.Blogpost)) with
  | none => none
  | some entries => some ⟨List.insertionSort dateDesc entries⟩

/-! ### Tag counts (`BlogpostIndex::tags_and_counts`) -/

/-- All tag occurrences across the index, in entry order. -/
def allTags (idx : BlogpostIndex) : List String :=
  (idx.entries.map (fun e => e.tags)).join

/-- The comparator of `tags_and_counts`' `sorted_by` (count descending,
ties by tag name descending) as a weak order. -/
def tcLe (a b : String × Nat) : Prop :=
  b.2 < a.2 ∨ (a.2 = b.2 ∧ strLe b.1 a.1)

instance : DecidableRel tcLe := fun a b => by unfold tcLe; infer_instance

instance : IsTotal (String × Nat) tcLe :=
  ⟨fun a b => by
    unfold tcLe
    rcases Nat.lt_trichotomy a.2 b.2 with h | h | h
    · exact Or.inr (Or.inl h)
    · rcases IsTotal.total (r := strLe) a.1 b.1 with hs | hs
      · exact Or.inr (Or.inr ⟨h.symm, hs⟩)
      · exact Or.inl (Or.inr ⟨h, hs⟩)
    · exact Or.inl (Or.inl h)⟩

instance : IsTrans (String × Nat) tcLe :=
  ⟨fun a b c h1 h2 => by
    unfold tcLe at *
    rcases h1 with h1 | ⟨h1e, h1s⟩ <;> rcases h2 with h2 | ⟨h2e, h2s⟩
    · exact Or.inl (Nat.lt_trans h2 h1)
    · exact Or.inl (h2e ▸ h1)
    · exact Or.inl (h1e ▸ h2)
    · exact Or.inr ⟨h1e.trans h2e, cmpChars_trans h2s h1s⟩⟩

/-- `BlogpostIndex::tags_and_counts`: flatten all tags, count
occurrences, sort by count descending with ties by name descending. -/
def tags_and_counts (idx : BlogpostIndex) : List (String × Nat) :=
  List.insertionSort tcLe
    ((allTags idx).dedup.map (fun t => (t, (allTags idx).count t)))

/-! ### The sitemap (`sitemap_indexer`) and the run's record model -/

/-- One content record as the sitemap, expansion and output-mapping
stages see it: its URL component (if resolved), whether the
`ExcludeFromSitemap` component was inserted, whether it is static
content, its content kind and metadata components (if any), its raw
body, and its `RelativeOutputPath` component (if already inserted —
the static loader sets it at load time). -/
structure PRecord where
  url : Option URL
  exclude : Bool
  isStatic : Bool
  type_ : Option DynamicContentType
  metadata : Option DynamicContentMetadata
  contents : String
  relOutputPath : Option String

/-- Resource `Sitemap`. -/
structure Sitemap where
  entries : List String

/-- `static_content_source_loader`: every discovered static path yields
a record whose URL is the relative path, with `CopySourceToOutput`,
`IsStaticContent`, — unconditionally — `ExcludeFromSitemap`, and a
`RelativeOutputPath` equal to the relative source path. -/
def static_content_source_loader (config : Config) (paths : List String) :
    List PRecord :=
  paths.map (fun p =>
    { url := some { url := p, absolute := config.site_url ++ p }
      exclude := true
      isStatic := true
      type_ := none
      metadata := none
      contents := ""
      relOutputPath := some p })

/-- `sitemap_indexer`: the URLs of every record without
`ExcludeFromSitemap`, collected into a `BTreeSet` (deduplicated,
sorted ascending). -/
def sitemap_indexer (records : List PRecord) : Sitemap :=
  ⟨List.insertionSort strLe
    ((records.filterMap (fun r =>
      if r.exclude then none else r.url.map (fun u => u.url))).dedup)⟩

/-! ### Tag-page expansion (`tag_page_generator`) -/

/-- One expansion step: clone the template metadata, inject `tag`,
resolve the URL (`none` models `metadata_to_url`'s panics); the new
record carries the cloned metadata, the template body and the URL. -/
def expandTag (config : Config) (m : DynamicContentMetadata)
    (contents : String) (tag : String) : Option PRecord :=
  (metadata_to_url config { m with stuff := bagInsert m.stuff "tag" (.str tag) }).map
    (fun url =>
      { url := some url
        exclude := false
        isStatic := false
        type_ := some DynamicContentType.BlogpostTagPage
        metadata := some { m with stuff := bagInsert m.stuff "tag" (.str tag) }
        contents := contents
        relOutputPath := none })

/-- The `BlogpostTagPage` template records among a record set, as
(metadata, body) pairs. -/
def tagTemplates (records : List PRecord) : List (DynamicContentMetadata × String) :=
  records.filterMap (fun r =>
    match r.type_, r.metadata with
    | some DynamicContentType.BlogpostTagPage, some m => some (m, r.contents)
    | _, _ => none)

/-- `tag_page_generator`: for every tag-page template and every tag of
the tag-count view, expand one record and push its URL onto the
sitemap; finally re-sort the sitemap. -/
def tag_page_generator (config : Config) (idx : BlogpostIndex)
    (sitemap : Sitemap) (records : List PRecord) :
    Option (List PRecord × Sitemap) :=
  match mapMO
      (fun t => mapMO (expandTag config t.1 t.2)
        ((tags_and_counts idx).map (fun p => p.1)))
      (tagTemplates records) with
  | none => none
  | some newRecords =>
    some (newRecords.join,
      ⟨List.insertionSort strLe
        (sitemap.entries ++
          newRecords.join.filterMap (fun r => r.url.map (fun u => u.url)))⟩)

/-! ### URL to output path (`map_urls_to_relative_paths`) -/

/-- The normal components of a URL path, as `std::path::Path` parses
them (empty and `.` components are dropped). -/
def pathSegments (url : String) : List String :=
  (splitChar '/' url).filter (fun s => s != "" && s != ".")

/-- `Path::file_name`: the last normal component, `none` when there is
none or the path ends in `..`. -/
def fileNameOfUrl (url : String) : Option String :=
  match (pathSegments url).getLast? with
  | none => none
  | some s => if s = ".." then none else some s

/-- Split a file name at its last `.`: `some (before, after)` when a
dot exists. -/
def extSplit : List Char → Option (List Char × List Char)
  | [] => none
  | c :: cs =>
    match extSplit cs with
    | some (b, a) => some (c :: b, a)
    | none => if c = '.' then some ([], cs) else none

/-- `Path::extension` on a file name: the part after the last dot,
`none` when there is no dot or the part before the last dot is empty
(hidden files). -/
def extensionOfName (name : String) : Option String :=
  match extSplit name.data with
  | some (before, after) => if before = [] then none else some (String.mk after)
  | none => none

/-- `path.extension().is_none()` for a URL string. -/
def hasExtension (url : String) : Bool :=
  match fileNameOfUrl url with
  | none => false
  | some n => (extensionOfName n).isSome

/-- `PathBuf::push("index.html")`: appends a separator unless one (or
nothing) is already there. -/
def pushIndexHtml (url : String) : String :=
  if url = "" || url.data.getLast? == some '/' then url ++ "index.html"
  else url ++ "/index.html"

/-- The body of `map_urls_to_relative_paths`' per-record loop on one
URL: the URL itself when it has a file extension, with `index.html`
pushed otherwise. -/
def urlToOutputPath (url : String) : String :=
  if hasExtension url then url else pushIndexHtml url

/-- The `map_urls_to_relative_paths` system: its query is
`(Entity, &URL)` `Without<RelativeOutputPath>`, so only records with a
resolved URL and no output path yet are mapped; records that already
carry a `RelativeOutputPath` — in particular every static-asset
record, which received its relative source path at load — are left
untouched. -/
def map_urls_to_relative_paths (records : List PRecord) : List PRecord :=
  records.map (fun r =>
    match r.relOutputPath, r.url with
    | none, some u => { r with relOutputPath := some (urlToOutputPath u.url) }
    | _, _ => r)

/-! ### The navbar indexer (`navbar_indexer`) -/

/-- Struct `NavbarEntry`. -/
structure NavbarEntry where
  url : String
  title : String
  active : Bool
  children : List NavbarEntry

/-- Resource `Navbar`. -/
structure Navbar where
  entries : List NavbarEntry

/-- One navbar candidate: the record's URL, its navbar directive and
its title, as the indexer's `filter_map` collects them. -/
abbrev NavItem := URL × NavbarConfig × String

/-- `navbar_indexer`'s `filter_map`: the records whose metadata has a
navbar directive. -/
def navCandidates (rs : List (URL × DynamicContentMetadata)) : List NavItem :=
  rs.filterMap (fun r => r.2.navbar.map (fun n => (r.1, n, r.2.title)))

/-- Ascending order on candidates by their own `index`. -/
def itemIdxLe (a b : NavItem) : Prop := a.2.1.index ≤ b.2.1.index

instance : DecidableRel itemIdxLe := fun a b => Nat.decLe _ _

instance : IsTotal NavItem itemIdxLe := ⟨fun a b => Nat.le_total _ _⟩

instance : IsTrans NavItem itemIdxLe := ⟨fun _ _ _ => Nat.le_trans⟩

/-- Ascending order on keyed entries by their order key. -/
def keyLe (a b : Nat × NavbarEntry) : Prop := a.1 ≤ b.1

instance : DecidableRel keyLe := fun a b => Nat.decLe _ _

instance : IsTotal (Nat × NavbarEntry) keyLe := ⟨fun a b => Nat.le_total _ _⟩

instance : IsTrans (Nat × NavbarEntry) keyLe := ⟨fun _ _ _ => Nat.le_trans⟩

/-- A non-primary candidate as a keyed child entry. -/
def mkChild (it : NavItem) : Nat × NavbarEntry :=
  (it.2.1.index, { url := it.1.url, title := it.2.2, active := false, children := [] })

/-- One `chunk_by` group of `navbar_indexer`'s `flat_map`: partition
off the primaries (`Iterator::partition` keeps order, so the two sides
are the two filters), sort the rest ascending by `index`; an ungrouped
chunk yields the children directly (its primaries are not kept); a
named group must have exactly one primary (`none` models the two
panics: `> 1` and the failed `pop`) and yields the primary as parent,
keyed by the primary's `index`, with the sorted non-primaries as its
children. -/
def processGroup (g : Option String) (members : List NavItem) :
    Option (List (Nat × NavbarEntry)) :=
  match g with
  | none =>
    some ((List.insertionSort itemIdxLe
      (members.filter (fun it => !it.2.1.is_primary))).map mkChild)
  | some _ =>
    match members.filter (fun it => it.2.1.is_primary) with
    | [p] =>
      some [(p.2.1.index,
        { url := p.1.url
          title := p.2.2
          active := false
          children := ((List.insertionSort itemIdxLe
            (members.filter (fun it => !it.2.1.is_primary))).map mkChild).map
            (fun c => c.2) })]
    | _ => none

/-- Process each distinct group of candidates in turn, concatenating
the keyed results; any group's panic aborts the run.  The source
iterates chunks in `Option<String>`-sorted group order; the iteration
order only affects the relative position of equal order keys after the
final stable sort, which no property here depends on, so the distinct
groups are taken from `dedup` instead. -/
def buildGroups (items : List NavItem) :
    List (Option String) → Option (List (Nat × NavbarEntry))
  | [] => some []
  | g :: gs =>
    match processGroup g (items.filter (fun it => it.2.1.group == g)),
        buildGroups items gs with
    | some this, some rest => some (this ++ rest)
    | _, _ => none

/-- The keyed top-level list before the final sort. -/
def navbarKeyed (rs : List (URL × DynamicContentMetadata)) :
    Option (List (Nat × NavbarEntry)) :=
  buildGroups (navCandidates rs)
    (((navCandidates rs).map (fun it => it.2.1.group)).dedup)

/-- `navbar_indexer`: build the keyed forest, sort the top level
ascending by order key, drop the keys. -/
def navbar_indexer (rs : List (URL × DynamicContentMetadata)) : Option Navbar :=
  match navbarKeyed rs with
  | none => none
  | some keyed => some ⟨(List.insertionSort keyLe keyed).map (fun p => p.2)⟩

/-- The non-primary candidates of a named group, sorted ascending by
their own `index`, as `processGroup` builds a group's children. -/
def groupSortedNonPrimaries (rs : List (URL × DynamicContentMetadata))
    (g : String) : List NavItem :=
  List.insertionSort itemIdxLe
    (((navCandidates rs).filter (fun it => it.2.1.group == some g)).filter
      (fun it => !it.2.1.is_primary))

/-! ### Concrete fixtures used by witnesses and counterexamples -/

/-- A baseline metadata value for fixtures. -/
def mBase : DynamicContentMetadata :=
  { route := "blog", title := "T", template := none, navbar := none,
    markdown := false, stuff := [], og_title := "", og_type := "",
    og_description := "", exclude_from_sitemap := false }

/-- A fixture configuration: a slug route, a tag route and a route that
collides with a static asset path. -/
def cfgEx : Config :=
  { sitename := "s"
    routes := [("blog", "/blog/\x7bslug\x7d"), ("tagp", "/tags/\x7btag\x7d"),
      ("css", "foo.css")]
    blogpost_template := "post.html"
    site_url := "https://x.y" }

/-- An index-entry fixture. -/
def entryFix (url date year month day : String) (tags : List String) :
    BlogpostIndexEntry :=
  { url := url, slug := url, title := "", excerpt := "", date := date,
    year := year, month := month, day := day, tags := tags, featured := false }

/-- A two-post index whose tag multiset is `a:2, b:2, c:1`. -/
def idxEx : BlogpostIndex :=
  ⟨[entryFix "/1" "2023/01/05" "2023" "01" "05" ["a", "b", "c"],
    entryFix "/2" "2024/01/01" "2024" "01" "01" ["a", "b"]]⟩

/-- Metadata whose date is not zero-padded. -/
def mC1 : DynamicContentMetadata :=
  { mBase with stuff := [("date", JsonValue.str "2023/1/5")] }

/-- A tag-page template flagged `exclude_from_sitemap`. -/
def mTagTmplX : DynamicContentMetadata :=
  { mBase with route := "tagp", exclude_from_sitemap := true }

/-- The record loaded from that template (the loader inserts
`ExcludeFromSitemap` for it). -/
def tmplRecX : PRecord :=
  { url := none, exclude := true, isStatic := false,
    type_ := some DynamicContentType.BlogpostTagPage,
    metadata := some mTagTmplX, contents := "tagbody", relOutputPath := none }

/-- The record expanded from `tmplRecX` for one tag. -/
def recTagX (t u : String) : PRecord :=
  { url := some { url := u, absolute := "https://x.y" ++ u }
    exclude := false
    isStatic := false
    type_ := some DynamicContentType.BlogpostTagPage
    metadata := some { mTagTmplX with stuff := [("tag", JsonValue.str t)] }
    contents := "tagbody"
    relOutputPath := none }

/-- A tag-page template that is not excluded. -/
def mTagTmplW : DynamicContentMetadata := { mBase with route := "tagp" }

/-- Its loaded record. -/
def tmplRecW : PRecord :=
  { url := none, exclude := false, isStatic := false,
    type_ := some DynamicContentType.BlogpostTagPage,
    metadata := some mTagTmplW, contents := "tbody", relOutputPath := none }

/-- The record expanded from `tmplRecW` for one tag. -/
def recTagW (t u : String) : PRecord :=
  { url := some { url := u, absolute := "https://x.y" ++ u }
    exclude := false
    isStatic := false
    type_ := some DynamicContentType.BlogpostTagPage
    metadata := some { mTagTmplW with stuff := [("tag", JsonValue.str t)] }
    contents := "tbody"
    relOutputPath := none }

/-- The expected expansion output for `tmplRecW` over `idxEx`. -/
def outW : List PRecord × Sitemap :=
  ([recTagW "b" "/tags/b", recTagW "a" "/tags/a", recTagW "c" "/tags/c"],
    ⟨["/tags/a", "/tags/b", "/tags/c"]⟩)

/-- The static record loaded from path `foo.css`. -/
def staticFoo : PRecord :=
  { url := some { url := "foo.css", absolute := "https://x.yfoo.css" }
    exclude := true
    isStatic := true
    type_ := none
    metadata := none
    contents := ""
    relOutputPath := some "foo.css" }

/-- A non-static record whose route resolves to the same URL string as
the static asset. -/
def dynFoo : PRecord :=
  { url := url_for_impl cfgEx "css" []
    exclude := false
    isStatic := false
    type_ := some DynamicContentType.SinglePage
    metadata := none
    contents := ""
    relOutputPath := none }

/-- Two records for the sitemap witness: one kept, one excluded. -/
def recsSm : List PRecord :=
  [{ url := some { url := "/b", absolute := "https://x.y/b" }, exclude := false,
     isStatic := false, type_ := none, metadata := none, contents := "",
     relOutputPath := none },
   { url := some { url := "/c", absolute := "https://x.y/c" }, exclude := true,
     isStatic := false, type_ := none, metadata := none, contents := "",
     relOutputPath := none }]

/-- The static record loaded from the extension-less path `CNAME`. -/
def staticCname : PRecord :=
  { url := some { url := "CNAME", absolute := "https://x.yCNAME" }
    exclude := true
    isStatic := true
    type_ := none
    metadata := none
    contents := ""
    relOutputPath := some "CNAME" }

/-- A dynamic record with a resolved, extension-less URL and no output
path yet. -/
def dynPost : PRecord :=
  { url := some { url := "/blog/my-post", absolute := "https://x.y/blog/my-post" }
    exclude := false
    isStatic := false
    type_ := some DynamicContentType.Blogpost
    metadata := none
    contents := ""
    relOutputPath := none }

/-- Metadata of an ungrouped navbar entry flagged primary. -/
def mNavUP : DynamicContentMetadata :=
  { mBase with navbar := some ⟨0, none, true⟩, title := "A" }

/-- A record set whose only candidate is ungrouped and primary. -/
def rsNavUP : List (URL × DynamicContentMetadata) :=
  [({ url := "/a", absolute := "https://x.y/a" }, mNavUP)]

/-- An ungrouped non-primary entry with index 2. -/
def mNavA : DynamicContentMetadata :=
  { mBase with navbar := some ⟨2, none, false⟩, title := "A" }

/-- A non-primary member of group `g` with index 1. -/
def mNavB : DynamicContentMetadata :=
  { mBase with navbar := some ⟨1, some "g", false⟩, title := "B" }

/-- The primary of group `g` with index 0. -/
def mNavC : DynamicContentMetadata :=
  { mBase with navbar := some ⟨0, some "g", true⟩, title := "C" }

/-- A navbar fixture: one ungrouped entry and one group of two. -/
def rsNav : List (URL × DynamicContentMetadata) :=
  [({ url := "/a", absolute := "https://x.y/a" }, mNavA),
   ({ url := "/b", absolute := "https://x.y/b" }, mNavB),
   ({ url := "/c", absolute := "https://x.y/c" }, mNavC)]

/-- The keyed top level `navbarKeyed` builds from `rsNav`. -/
def keyedNav : List (Nat × NavbarEntry) :=
  [(2, { url := "/a", title := "A", active := false, children := [] }),
   (0, { url := "/c", title := "C", active := false,
         children := [{ url := "/b", title := "B", active := false,
                        children := [] }] })]

/-- Metadata of a loaded blog post (the bag as the load stage leaves
it). -/
def mPost (slug date year month day : String) : DynamicContentMetadata :=
  { mBase with stuff :=
    [("slug", JsonValue.str slug), ("date", JsonValue.str date),
     ("year", JsonValue.str year), ("month", JsonValue.str month),
     ("day", JsonValue.str day), ("excerpt", JsonValue.str "e")] }

/-- Two blogpost records for the index witness. -/
def recsC6 : List (DynamicContentType × URL × DynamicContentMetadata) :=
  [(DynamicContentType.Blogpost, { url := "/1", absolute := "https://x.y/1" },
    mPost "1" "2023/01/05" "2023" "01" "05"),
   (DynamicContentType.Blogpost, { url := "/2", absolute := "https://x.y/2" },
    mPost "2" "2024/01/01" "2024" "01" "01")]

/-- The newer entry of the index witness. -/
def entC6a : BlogpostIndexEntry :=
  { url := "/2", slug := "2", title := "T", excerpt := "e", date := "2024/01/01",
    year := "2024", month := "01", day := "01", tags := [], featured := false }

/-- The older entry of the index witness. -/
def entC6b : BlogpostIndexEntry :=
  { url := "/1", slug := "1", title := "T", excerpt := "e", date := "2023/01/05",
    year := "2023", month := "01", day := "05", tags := [], featured := false }

/-- The index built from `recsC6`, newest first. -/
def idxC6 : BlogpostIndex := ⟨[entC6a, entC6b]⟩

/-- A concrete (year, month, day) reading of the witness entries. -/
def fW : BlogpostIndexEntry → Nat × Nat × Nat :=
  fun e => if e.slug = "2" then (2024, 1, 1) else (2023, 1, 5)

/-! ### Helper lemmas -/

theorem mem_sitemap_indexer {records : List PRecord} {s : String}
    (h : s ∈ (sitemap_indexer records).entries) :
    ∃ r ∈ records, r.exclude = false ∧ ∃ u, r.url = some u ∧ u.url = s := by
  unfold sitemap_indexer at h
  simp only at h
  have h2 := (List.perm_insertionSort strLe _).mem_iff.mp h
  rw [List.mem_dedup] at h2
  rcases List.mem_filterMap.mp h2 with ⟨r, hr, hf⟩
  refine ⟨r, hr, ?_⟩
  by_cases he : r.exclude
  · simp [he] at hf
  · rw [if_neg he] at hf
    rcases hru : r.url with _ | u <;> rw [hru] at hf
    · cases hf
    · have hf2 : u.url = s := by simpa using hf
      exact ⟨by simpa using he, u, rfl, hf2⟩

theorem mapMO_length {f : α → Option β} :
    ∀ {l : List α} {l2 : List β}, mapMO f l = some l2 → l2.length = l.length
  | [], l2, h => by
    unfold mapMO at h
    cases h
    rfl
  | a :: l, l2, h => by
    unfold mapMO at h
    rcases hfa : f a with _ | b <;> rw [hfa] at h
    · cases h
    · rcases hml : mapMO f l with _ | bs <;> rw [hml] at h
      · cases h
      · cases h
        simp [mapMO_length hml]

theorem mapMO_mem {f : α → Option β} :
    ∀ {l : List α} {l2 : List β}, mapMO f l = some l2 →
      ∀ a ∈ l, ∃ b ∈ l2, f a = some b
  | [], _, _, a, ha => absurd ha (by simp)
  | a0 :: l, l2, h, a, ha => by
    unfold mapMO at h
    rcases hfa : f a0 with _ | b <;> rw [hfa] at h
    · cases h
    · rcases hml : mapMO f l with _ | bs <;> rw [hml] at h
      · cases h
      · cases h
        rcases List.mem_cons.mp ha with rfl | ha2
        · exact ⟨b, List.mem_cons_self b bs, hfa⟩
        · rcases mapMO_mem hml a ha2 with ⟨b2, hb2, hfb2⟩
          exact ⟨b2, List.mem_cons_of_mem b hb2, hfb2⟩

theorem mapMO_mem_rev {f : α → Option β} :
    ∀ {l : List α} {l2 : List β}, mapMO f l = some l2 →
      ∀ b ∈ l2, ∃ a ∈ l, f a = some b
  | [], l2, h, b, hb => by
    unfold mapMO at h
    cases h
    exact absurd hb (by simp)
  | a0 :: l, l2, h, b, hb => by
    unfold mapMO at h
    rcases hfa : f a0 with _ | b0 <;> rw [hfa] at h
    · cases h
    · rcases hml : mapMO f l with _ | bs <;> rw [hml] at h
      · cases h
      · cases h
        rcases List.mem_cons.mp hb with rfl | hb2
        · exact ⟨a0, List.mem_cons_self a0 l, hfa⟩
        · rcases mapMO_mem_rev hml b hb2 with ⟨a, ha, hfb⟩
          exact ⟨a, List.mem_cons_of_mem a0 ha, hfb⟩

theorem sum_lengths_const {l : List (List α)} {k : Nat}
    (h : ∀ x ∈ l, x.length = k) : (l.map List.length).sum = l.length * k := by
  induction l with
  | nil => simp
  | cons x l ih =>
    simp only [List.map_cons, List.sum_cons, List.length_cons,
      h x (List.mem_cons_self x l), ih (fun y hy => h y (List.mem_cons_of_mem x hy))]
    ring

/-! ### Claim C1 (the loader's date enrichment) -/

/-- Claim C1: loading a blog post fails fatally unless `date` is a
string with exactly three slash-separated parts, and on success
`date`, `year`, `month`, `day` and `slug` are all present — but the
injected values are left-aligned space padding of the parts
(Rust `format!("\x7b:4\x7d", part)`), not zero padding: a post dated
`2023/1/5` loads fine and gets month `"1 "` and day `"5 "`, which the
spec's zero-padding claim (and the archives view's month table) would
require to be `"01"` and `"05"`. -/
theorem blogpost_enrich_space_pads :
    (blogpost_enrich "post.html" "hello" mC1).map
      (fun m => (getStr m.stuff "date", getStr m.stuff "year",
        getStr m.stuff "month", getStr m.stuff "day", getStr m.stuff "slug")) =
      some (some "2023/1/5", some "2023", some "1 ", some "5 ", some "hello") ∧
    "1 " ≠ "01" ∧ "5 " ≠ "05" ∧
    blogpost_enrich "post.html" "hello" { mC1 with stuff := [] } = none ∧
    blogpost_enrich "post.html" "hello"
      { mC1 with stuff := [("date", JsonValue.int 3)] } = none ∧
    blogpost_enrich "post.html" "hello"
      { mC1 with stuff := [("date", JsonValue.str "2023-01-05")] } = none :=
  ⟨rfl, by decide, by decide, rfl, rfl, rfl⟩

/-! ### Claim C4 (URL resolution is total or fatal) -/

/-- Claim C4: resolving a route fails fatally when the route name is
unknown; after the substitution loop exhausts the bag, a remaining
brace is fatal; on success the URL contains no opening brace, its
absolute form is the site base URL followed by the relative URL, and
the relative URL is exactly the route template after substitution. -/
theorem url_for_total_or_fatal (config : Config) (route : String)
    (replacements : Bag) :
    (routeLookup config.routes route = none →
      url_for_impl config route replacements = none) ∧
    (∀ t, routeLookup config.routes route = some t →
      containsChar (substLoop replacements t) lbrace = true →
      url_for_impl config route replacements = none) ∧
    (∀ u, url_for_impl config route replacements = some u →
      containsChar u.url lbrace = false ∧
      u.absolute = config.site_url ++ u.url ∧
      ∃ t, routeLookup config.routes route = some t ∧
        u.url = substLoop replacements t) := by
  refine ⟨fun h => by simp [url_for_impl, h], fun t ht hb => ?_, fun u hu => ?_⟩
  · simp [url_for_impl, ht, hb]
  · unfold url_for_impl at hu
    split at hu
    · cases hu
    · rename_i t ht
      split at hu
      · cases hu
      · rename_i hb
        cases hu
        exact ⟨by simpa using hb, rfl, t, ht, rfl⟩

/-- Witness for C4 at concrete inputs: an unknown route fails, an
unresolvable placeholder fails, and a resolvable route yields a
brace-free URL with the site prefix. -/
theorem url_for_total_or_fatal_w :
    url_for_impl cfgEx "nope" [] = none ∧
    url_for_impl cfgEx "blog" [] = none ∧
    (containsChar (URL.mk "/blog/hi" "https://x.y/blog/hi").url lbrace = false ∧
      (URL.mk "/blog/hi" "https://x.y/blog/hi").absolute =
        cfgEx.site_url ++ (URL.mk "/blog/hi" "https://x.y/blog/hi").url ∧
      ∃ t, routeLookup cfgEx.routes "blog" = some t ∧
        (URL.mk "/blog/hi" "https://x.y/blog/hi").url =
          substLoop [("slug", JsonValue.str "hi")] t) := by
  refine ⟨(url_for_total_or_fatal cfgEx "nope" []).1 rfl, ?_, ?_⟩
  · exact (url_for_total_or_fatal cfgEx "blog" []).2.1 "/blog/\x7bslug\x7d" rfl rfl
  · exact (url_for_total_or_fatal cfgEx "blog" [("slug", JsonValue.str "hi")]).2.2
      (URL.mk "/blog/hi" "https://x.y/blog/hi") rfl

/-! ### Claim C8 (tag counts: count descending, name descending on ties) -/

/-- Claim C8: the tag-count view lists each distinct tag exactly once
with its number of occurrences, ordered by count descending with ties
broken by tag name descending; on the multiset `a:2, b:2, c:1` the
output is `[(b,2), (a,2), (c,1)]`. -/
theorem tags_and_counts_spec (idx : BlogpostIndex) :
    List.Sorted tcLe (tags_and_counts idx) ∧
    ((tags_and_counts idx).map (fun p => p.1)).Nodup ∧
    (∀ p : String × Nat, p ∈ tags_and_counts idx ↔
      p.1 ∈ allTags idx ∧ p.2 = (allTags idx).count p.1) ∧
    tags_and_counts idxEx = [("b", 2), ("a", 2), ("c", 1)] := by
  refine ⟨List.sorted_insertionSort tcLe _, ?_, fun p => ?_, by decide⟩
  · unfold tags_and_counts
    have hperm :=
      ((List.perm_insertionSort tcLe
        ((allTags idx).dedup.map (fun t => (t, (allTags idx).count t)))).map
        (fun p : String × Nat => p.1))
    rw [hperm.nodup_iff, List.map_map]
    rw [show ((fun p : String × Nat => p.1) ∘ fun t => (t, (allTags idx).count t)) = id
      from rfl, List.map_id]
    exact (allTags idx).nodup_dedup
  · unfold tags_and_counts
    rw [(List.perm_insertionSort tcLe _).mem_iff, List.mem_map]
    constructor
    · rintro ⟨t, ht, rfl⟩
      exact ⟨List.mem_dedup.mp ht, rfl⟩
    · rintro ⟨h1, h2⟩
      refine ⟨p.1, List.mem_dedup.mpr h1, ?_⟩
      cases p
      simp only at h2 ⊢
      rw [h2]

/-! ### Claim C9 (output path defaulting) -/

/-- Counterexample to C9: the mapper's query is
`Without<RelativeOutputPath>`, and the static loader inserts a
`RelativeOutputPath` at load time, so the static asset `CNAME` — a
record with a resolved, extension-less URL — passes the mapper
untouched and keeps relative output path `CNAME`: no `index.html` is
appended, although the claim quantifies over every record with a
resolved URL. -/
theorem static_asset_keeps_load_output_path :
    static_content_source_loader cfgEx ["CNAME"] = [staticCname] ∧
    staticCname.url = some (URL.mk "CNAME" "https://x.yCNAME") ∧
    hasExtension "CNAME" = false ∧
    map_urls_to_relative_paths [staticCname] = [staticCname] ∧
    staticCname.relOutputPath = some "CNAME" ∧
    "CNAME" ≠ "CNAME/index.html" :=
  ⟨rfl, rfl, rfl, rfl, rfl, by decide⟩

/-- Claim C9 as amended: for every record with a resolved URL and no
output path yet (the mapper's `Without<RelativeOutputPath>` query — in
particular every record the dynamic stages produce), the relative
output path is the URL itself when its last segment has a file
extension and the URL with the default document `index.html` pushed
otherwise; `/blog/my-post` maps to `/blog/my-post/index.html` and
`/feed.xml` to itself.  A record that already carries an output path —
in particular every static-asset record, which receives its relative
source path at load — bypasses the mapper unchanged. -/
theorem output_path_defaulting_scoped (records : List PRecord) (url : String) :
    (hasExtension url = true → urlToOutputPath url = url) ∧
    (hasExtension url = false → urlToOutputPath url = pushIndexHtml url) ∧
    urlToOutputPath "/blog/my-post" = "/blog/my-post/index.html" ∧
    urlToOutputPath "/feed.xml" = "/feed.xml" ∧
    (∀ r ∈ records, r.relOutputPath = none → ∀ u, r.url = some u →
      { r with relOutputPath := some (urlToOutputPath u.url) } ∈
        map_urls_to_relative_paths records) ∧
    (∀ r ∈ records, r.relOutputPath ≠ none →
      r ∈ map_urls_to_relative_paths records) ∧
    map_urls_to_relative_paths [dynPost] =
      [{ dynPost with relOutputPath := some "/blog/my-post/index.html" }] := by
  refine ⟨fun h => ?_, fun h => ?_, rfl, rfl, ?_, ?_, rfl⟩
  · simp [urlToOutputPath, h]
  · simp [urlToOutputPath, h]
  · intro r hr hnone u hu
    refine List.mem_map.mpr ⟨r, hr, ?_⟩
    rw [hnone, hu]
  · intro r hr hsome
    refine List.mem_map.mpr ⟨r, hr, ?_⟩
    rcases hro : r.relOutputPath with _ | p
    · exact absurd hro hsome
    · rcases hu : r.url with _ | u <;> rfl

/-! ### Claim C3 (sitemap exclusion) -/

/-- Counterexample to C3: a tag-page template flagged
`exclude_from_sitemap = true`, expanded over the tag view `b, a, c`,
yields records whose metadata still carries the flag and whose URLs
are nevertheless pushed into the final sitemap — `/tags/b` (the URL of
an expanded record whose metadata sets `exclude_from_sitemap = true`)
is in the final re-sorted sitemap aggregate. -/
theorem tag_expansion_ignores_exclude_flag :
    tag_page_generator cfgEx idxEx ⟨[]⟩ [tmplRecX] =
      some ([recTagX "b" "/tags/b", recTagX "a" "/tags/a", recTagX "c" "/tags/c"],
        ⟨["/tags/a", "/tags/b", "/tags/c"]⟩) ∧
    mTagTmplX.exclude_from_sitemap = true ∧
    (recTagX "b" "/tags/b").metadata =
      some { mTagTmplX with stuff := [("tag", JsonValue.str "b")] } ∧
    (recTagX "b" "/tags/b").url = some (URL.mk "/tags/b" "https://x.y/tags/b") ∧
    "/tags/b" ∈ ["/tags/a", "/tags/b", "/tags/c"] :=
  ⟨rfl, rfl, rfl, rfl, by decide⟩

/-- Claim C3 as amended: the sitemap indexer itself never collects a
URL from a record carrying `ExcludeFromSitemap` — every URL of its
aggregate is the URL of some non-excluded record.  (Tag-page
expansion, by contrast, appends its URLs unconditionally, which is
what the counterexample shows.) -/
theorem sitemap_excludes_flagged (records : List PRecord) (s : String)
    (h : s ∈ (sitemap_indexer records).entries) :
    ∃ r ∈ records, r.exclude = false ∧ ∃ u, r.url = some u ∧ u.url = s :=
  mem_sitemap_indexer h

/-- Witness for the amended C3 at a concrete record set. -/
theorem sitemap_excludes_flagged_w :
    ∃ r ∈ recsSm, r.exclude = false ∧ ∃ u, r.url = some u ∧ u.url = "/b" :=
  sitemap_excludes_flagged recsSm "/b" (by decide)

/-! ### Claim C10 (static assets and the sitemap) -/

/-- Counterexample to C10: the static asset `foo.css` is loaded
excluded, yet its URL string appears in the sitemap aggregate of a run
in which a distinct, non-excluded record's route resolves to the same
URL string. -/
theorem static_url_appears_via_collision :
    static_content_source_loader cfgEx ["foo.css"] = [staticFoo] ∧
    staticFoo.exclude = true ∧
    staticFoo.isStatic = true ∧
    staticFoo.url = some (URL.mk "foo.css" "https://x.yfoo.css") ∧
    dynFoo.url = url_for_impl cfgEx "css" [] ∧
    dynFoo.isStatic = false ∧
    "foo.css" ∈ (sitemap_indexer [staticFoo, dynFoo]).entries :=
  ⟨rfl, rfl, rfl, rfl, rfl, rfl, by decide⟩

/-- Claim C10 as amended: every record the static loader produces is
flagged `ExcludeFromSitemap` (and static), so the sitemap indexer
never collects a URL from a static record itself: any URL of the
aggregate is the URL of some non-excluded — hence non-static — record.
A static asset's URL string can appear only when such a distinct
record resolves to the identical string. -/
theorem static_assets_never_contribute (config : Config) (paths : List String)
    (records : List PRecord) :
    (∀ r ∈ static_content_source_loader config paths,
      r.exclude = true ∧ r.isStatic = true) ∧
    (∀ s ∈ (sitemap_indexer records).entries,
      ∃ r2 ∈ records, r2.exclude = false ∧ ∃ u, r2.url = some u ∧ u.url = s) := by
  constructor
  · intro r hr
    unfold static_content_source_loader at hr
    rcases List.mem_map.mp hr with ⟨p, _, rfl⟩
    exact ⟨rfl, rfl⟩
  · intro s hs
    exact mem_sitemap_indexer hs

/-! ### Claim C5 (tag-page expansion completeness) -/

/-- Claim C5: when tag-page expansion succeeds it creates exactly one
new record per template and per distinct tag of the tag-count view
(the output length is the product), and for every template and tag
there is a new record whose metadata is the template's metadata with
`tag` injected, whose body is the template's raw body and whose
resolved URL is in the final re-sorted sitemap; the previous sitemap
entries are all preserved. -/
theorem tag_expansion_complete (config : Config) (idx : BlogpostIndex)
    (sitemap : Sitemap) (records : List PRecord) (out : List PRecord × Sitemap)
    (h : tag_page_generator config idx sitemap records = some out) :
    out.1.length =
      (tagTemplates records).length *
        ((tags_and_counts idx).map (fun p => p.1)).length ∧
    (∀ t ∈ tagTemplates records,
      ∀ tag ∈ (tags_and_counts idx).map (fun p => p.1),
      ∃ r ∈ out.1,
        r.metadata =
          some { t.1 with stuff := bagInsert t.1.stuff "tag" (.str tag) } ∧
        r.contents = t.2 ∧
        ∃ u, r.url = some u ∧
          metadata_to_url config
            { t.1 with stuff := bagInsert t.1.stuff "tag" (.str tag) } = some u ∧
          u.url ∈ out.2.entries) ∧
    (∀ s ∈ sitemap.entries, s ∈ out.2.entries) := by
  unfold tag_page_generator at h
  split at h
  · cases h
  · rename_i newRecords hm
    cases h
    refine ⟨?_, ?_, ?_⟩
    · rw [List.length_join]
      rw [sum_lengths_const (fun x hx => ?_), mapMO_length hm]
      rcases mapMO_mem_rev hm x hx with ⟨t, _, hft⟩
      exact mapMO_length hft
    · intro t ht tag htag
      rcases mapMO_mem hm t ht with ⟨recs, hrecs, hinner⟩
      rcases mapMO_mem hinner tag htag with ⟨r, hr, hexp⟩
      refine ⟨r, List.mem_join.mpr ⟨recs, hrecs, hr⟩, ?_⟩
      unfold expandTag at hexp
      rcases hmu : metadata_to_url config
          { t.1 with stuff := bagInsert t.1.stuff "tag" (.str tag) } with _ | u <;>
        rw [hmu] at hexp
      · cases hexp
      · have hre : r =
            { url := some u, exclude := false, isStatic := false,
              type_ := some DynamicContentType.BlogpostTagPage,
              metadata :=
                some { t.1 with stuff := bagInsert t.1.stuff "tag" (.str tag) },
              contents := t.2, relOutputPath := none } := by
          have := hexp
          simp only [Option.map_some] at this
          exact (Option.some.injEq _ _ ▸ this).symm
        subst hre
        refine ⟨rfl, rfl, u, rfl, rfl, ?_⟩
        refine (List.perm_insertionSort strLe _).mem_iff.mpr ?_
        refine List.mem_append.mpr (Or.inr ?_)
        refine List.mem_filterMap.mpr ⟨_, List.mem_join.mpr ⟨recs, hrecs, hr⟩, rfl⟩
    · intro s hs
      exact (List.perm_insertionSort strLe _).mem_iff.mpr
        (List.mem_append.mpr (Or.inl hs))

/-- Witness for C5: one template and the tag view `b, a, c` yield
exactly three records (1 × 3), each with `tag` injected, carrying the
template body, each URL present in the final sitemap. -/
theorem tag_expansion_complete_w :
    tag_page_generator cfgEx idxEx ⟨[]⟩ [tmplRecW] = some outW ∧
    outW.1.length =
      (tagTemplates [tmplRecW]).length *
        ((tags_and_counts idxEx).map (fun p => p.1)).length ∧
    outW.1.length = 3 ∧
    (∀ t ∈ tagTemplates [tmplRecW],
      ∀ tag ∈ (tags_and_counts idxEx).map (fun p => p.1),
      ∃ r ∈ outW.1,
        r.metadata =
          some { t.1 with stuff := bagInsert t.1.stuff "tag" (.str tag) } ∧
        r.contents = t.2 ∧
        ∃ u, r.url = some u ∧
          metadata_to_url cfgEx
            { t.1 with stuff := bagInsert t.1.stuff "tag" (.str tag) } = some u ∧
          u.url ∈ outW.2.entries) := by
  refine ⟨rfl, ?_, rfl, ?_⟩
  · exact (tag_expansion_complete cfgEx idxEx ⟨[]⟩ [tmplRecW] outW rfl).1
  · exact (tag_expansion_complete cfgEx idxEx ⟨[]⟩ [tmplRecW] outW rfl).2.1

/-! ### Navbar helper lemmas -/

theorem buildGroups_mem {items : List NavItem} :
    ∀ {gs : List (Option String)} {l : List (Nat × NavbarEntry)},
      buildGroups items gs = some l → ∀ g ∈ gs,
      ∃ part,
        processGroup g (items.filter (fun it => it.2.1.group == g)) = some part ∧
        ∀ x ∈ part, x ∈ l
  | [], _, _, g, hg => absurd hg (by simp)
  | g0 :: gs, l, h, g, hg => by
    unfold buildGroups at h
    rcases h0 : processGroup g0 (items.filter (fun it => it.2.1.group == g0)) with
      _ | part0 <;> rw [h0] at h
    · cases h
    · rcases h1 : buildGroups items gs with _ | rest <;> rw [h1] at h
      · cases h
      · cases h
        rcases List.mem_cons.mp hg with rfl | hg2
        · exact ⟨part0, h0, fun x hx => List.mem_append.mpr (Or.inl hx)⟩
        · rcases buildGroups_mem h1 g hg2 with ⟨part, hp, hsub⟩
          exact ⟨part, hp, fun x hx => List.mem_append.mpr (Or.inr (hsub x hx))⟩

theorem buildGroups_fail {items : List NavItem} :
    ∀ {gs : List (Option String)} {g : Option String}, g ∈ gs →
      processGroup g (items.filter (fun it => it.2.1.group == g)) = none →
      buildGroups items gs = none
  | [], _, hg, _ => absurd hg (by simp)
  | g0 :: gs, g, hg, hp => by
    rcases List.mem_cons.mp hg with rfl | hg2
    · unfold buildGroups
      rw [hp]
    · unfold buildGroups
      rw [buildGroups_fail hg2 hp]
      rcases processGroup g0 (items.filter (fun it => it.2.1.group == g0)) with
        _ | part0 <;> rfl

theorem buildGroups_sound {items : List NavItem} :
    ∀ {gs : List (Option String)} {l : List (Nat × NavbarEntry)},
      buildGroups items gs = some l → ∀ x ∈ l,
      ∃ g ∈ gs, ∃ part,
        processGroup g (items.filter (fun it => it.2.1.group == g)) = some part ∧
        x ∈ part
  | [], _, h, x, hx => by
    unfold buildGroups at h
    cases h
    exact absurd hx (by simp)
  | g0 :: gs, l, h, x, hx => by
    unfold buildGroups at h
    rcases h0 : processGroup g0 (items.filter (fun it => it.2.1.group == g0)) with
      _ | part0 <;> rw [h0] at h
    · cases h
    · rcases h1 : buildGroups items gs with _ | rest <;> rw [h1] at h
      · cases h
      · cases h
        rcases List.mem_append.mp hx with hx0 | hx1
        · exact ⟨g0, List.mem_cons_self g0 gs, part0, h0, hx0⟩
        · rcases buildGroups_sound h1 x hx1 with ⟨g, hgs, part, hp, hxp⟩
          exact ⟨g, List.mem_cons_of_mem g0 hgs, part, hp, hxp⟩

theorem processGroup_none_mem {members : List NavItem}
    {l : List (Nat × NavbarEntry)} (h : processGroup none members = some l)
    {x : Nat × NavbarEntry} :
    x ∈ l ↔ ∃ it ∈ members, it.2.1.is_primary = false ∧ x = mkChild it := by
  unfold processGroup at h
  cases h
  constructor
  · intro hx
    rcases List.mem_map.mp hx with ⟨it, hit, rfl⟩
    have hit2 := (List.perm_insertionSort itemIdxLe _).mem_iff.mp hit
    have hit3 := List.mem_filter.mp hit2
    exact ⟨it, hit3.1, by simpa using hit3.2, rfl⟩
  · rintro ⟨it, hit, hprim, rfl⟩
    refine List.mem_map.mpr ⟨it, ?_, rfl⟩
    refine (List.perm_insertionSort itemIdxLe _).mem_iff.mpr ?_
    exact List.mem_filter.mpr ⟨hit, by simp [hprim]⟩

theorem processGroup_some_char {s : String} {members : List NavItem}
    {l : List (Nat × NavbarEntry)} (h : processGroup (some s) members = some l) :
    ∃ p, members.filter (fun it => it.2.1.is_primary) = [p] ∧
      p ∈ members ∧ p.2.1.is_primary = true ∧
      l = [(p.2.1.index,
        { url := p.1.url, title := p.2.2, active := false,
          children := ((List.insertionSort itemIdxLe
            (members.filter (fun it => !it.2.1.is_primary))).map mkChild).map
            (fun c => c.2) })] := by
  simp only [processGroup] at h
  split at h
  · rename_i p hp
    cases h
    have hpm : p ∈ members.filter (fun it => it.2.1.is_primary) := by
      rw [hp]
      exact List.mem_cons_self p []
    have hpm2 := List.mem_filter.mp hpm
    exact ⟨p, hp, hpm2.1, hpm2.2, rfl⟩
  · cases h

theorem processGroup_some_fail {s : String} {members : List NavItem}
    (h : (members.filter (fun it => it.2.1.is_primary)).length ≠ 1) :
    processGroup (some s) members = none := by
  simp only [processGroup]
  split
  · rename_i p hp
    rw [hp] at h
    simp at h
  · rfl

/-! ### Claim C2 (ungrouped navbar entries at top level) -/

/-- Counterexample to C2: a candidate entry with no `group` but with
`is_primary = true` does not appear in the built forest at all — with
it as the only candidate the forest is empty, because the ungrouped
chunk keeps only its non-primary entries. -/
theorem navbar_drops_ungrouped_primary :
    navbar_indexer rsNavUP = some ⟨[]⟩ ∧
    navCandidates rsNavUP =
      [({ url := "/a", absolute := "https://x.y/a" },
        { index := 0, group := none, is_primary := true }, "A")] :=
  ⟨rfl, rfl⟩

/-- Claim C2 as amended: every ungrouped candidate with
`is_primary = false` appears as a top-level node keyed by its own
`index` (ungrouped primaries are silently dropped); every top-level
node is either such an ungrouped non-primary entry or the primary of a
named group, and the final list is sorted ascending by order key. -/
theorem navbar_toplevel_order (rs : List (URL × DynamicContentMetadata))
    (keyed : List (Nat × NavbarEntry)) (h : navbarKeyed rs = some keyed) :
    navbar_indexer rs = some ⟨(List.insertionSort keyLe keyed).map (fun p => p.2)⟩ ∧
    List.Sorted keyLe (List.insertionSort keyLe keyed) ∧
    (∀ it ∈ navCandidates rs, it.2.1.group = none → it.2.1.is_primary = false →
      mkChild it ∈ keyed) ∧
    (∀ x ∈ keyed,
      (∃ it ∈ navCandidates rs, it.2.1.group = none ∧ it.2.1.is_primary = false ∧
        x = mkChild it) ∨
      (∃ g : String, ∃ p ∈ navCandidates rs, p.2.1.group = some g ∧
        p.2.1.is_primary = true ∧ x.1 = p.2.1.index ∧ x.2.url = p.1.url ∧
        x.2.title = p.2.2)) := by
  refine ⟨?_, List.sorted_insertionSort keyLe keyed, ?_, ?_⟩
  · unfold navbar_indexer
    rw [h]
  · intro it hit hg hp
    have hgmem : (none : Option String) ∈
        ((navCandidates rs).map (fun it => it.2.1.group)).dedup :=
      List.mem_dedup.mpr (List.mem_map.mpr ⟨it, hit, by rw [hg]⟩)
    unfold navbarKeyed at h
    rcases buildGroups_mem h none hgmem with ⟨part, hpart, hsub⟩
    refine hsub _ ((processGroup_none_mem hpart).mpr ?_)
    exact ⟨it, List.mem_filter.mpr ⟨hit, by simp [hg]⟩, hp, rfl⟩
  · intro x hx
    unfold navbarKeyed at h
    rcases buildGroups_sound h x hx with ⟨g, _, part, hpart, hxp⟩
    cases g with
    | none =>
      left
      rcases (processGroup_none_mem hpart).mp hxp with ⟨it, hitm, hprim, rfl⟩
      have hit2 := List.mem_filter.mp hitm
      exact ⟨it, hit2.1, by simpa using hit2.2, hprim, rfl⟩
    | some s =>
      right
      rcases processGroup_some_char hpart with ⟨p, _, hpm, hpprim, rfl⟩
      have hxeq := List.mem_singleton.mp hxp
      subst hxeq
      have hpc := List.mem_filter.mp hpm
      exact ⟨s, p, hpc.1, by simpa using hpc.2, hpprim, rfl, rfl, rfl⟩

/-- Witness for the amended C2: the three-entry fixture builds the
keyed list `[(2, A), (0, C-parent)]`, the final forest is its sorted
projection, and the ungrouped non-primary entry `A` appears keyed by
its own index. -/
theorem navbar_toplevel_order_w :
    navbar_indexer rsNav =
      some ⟨(List.insertionSort keyLe keyedNav).map (fun p => p.2)⟩ ∧
    List.Sorted keyLe (List.insertionSort keyLe keyedNav) ∧
    mkChild ({ url := "/a", absolute := "https://x.y/a" },
      { index := 2, group := none, is_primary := false }, "A") ∈ keyedNav := by
  refine ⟨(navbar_toplevel_order rsNav keyedNav rfl).1,
    (navbar_toplevel_order rsNav keyedNav rfl).2.1, ?_⟩
  exact (navbar_toplevel_order rsNav keyedNav rfl).2.2.1 _ (by decide) rfl rfl

/-! ### Claim C7 (one primary per named group) -/

/-- Claim C7: building the navbar fails fatally when a named group
with at least one member has a number of primaries other than one
(zero, or more than one); on success every named group has exactly one
primary, which appears as the parent node keyed by its own `index`,
with the group's non-primary entries as its children sorted ascending
by their own `index`. -/
theorem navbar_groups_unique_primary (rs : List (URL × DynamicContentMetadata)) :
    (∀ g : String, (∃ it ∈ navCandidates rs, it.2.1.group = some g) →
      (((navCandidates rs).filter (fun it => it.2.1.group == some g)).filter
        (fun it => it.2.1.is_primary)).length ≠ 1 →
      navbar_indexer rs = none) ∧
    (∀ keyed, navbarKeyed rs = some keyed → ∀ g : String,
      ∀ it0 ∈ navCandidates rs, it0.2.1.group = some g →
      ∃ p ∈ navCandidates rs, p.2.1.group = some g ∧ p.2.1.is_primary = true ∧
        (((navCandidates rs).filter (fun it => it.2.1.group == some g)).filter
          (fun it => it.2.1.is_primary)).length = 1 ∧
        (p.2.1.index,
          { url := p.1.url, title := p.2.2, active := false,
            children := ((groupSortedNonPrimaries rs g).map mkChild).map
              (fun c => c.2) }) ∈ keyed ∧
        List.Sorted itemIdxLe (groupSortedNonPrimaries rs g) ∧
        (∀ c ∈ groupSortedNonPrimaries rs g,
          c ∈ navCandidates rs ∧ c.2.1.group = some g ∧
            c.2.1.is_primary = false)) := by
  constructor
  · rintro g ⟨it, hit, hg⟩ hlen
    have hgmem : (some g : Option String) ∈
        ((navCandidates rs).map (fun it => it.2.1.group)).dedup :=
      List.mem_dedup.mpr (List.mem_map.mpr ⟨it, hit, by rw [hg]⟩)
    unfold navbar_indexer navbarKeyed
    rw [buildGroups_fail hgmem (processGroup_some_fail hlen)]
  · intro keyed hk g it0 hit0 hg0
    have hgmem : (some g : Option String) ∈
        ((navCandidates rs).map (fun it => it.2.1.group)).dedup :=
      List.mem_dedup.mpr (List.mem_map.mpr ⟨it0, hit0, by rw [hg0]⟩)
    unfold navbarKeyed at hk
    rcases buildGroups_mem hk (some g) hgmem with ⟨part, hpart, hsub⟩
    rcases processGroup_some_char hpart with ⟨p, hfp, hpm, hpprim, rfl⟩
    have hpc := List.mem_filter.mp hpm
    refine ⟨p, hpc.1, by simpa using hpc.2, hpprim, ?_, ?_, ?_, ?_⟩
    · rw [hfp]
      rfl
    · exact hsub _ (List.mem_cons_self _ _)
    · exact List.sorted_insertionSort itemIdxLe _
    · intro c hc
      have hc2 := (List.perm_insertionSort itemIdxLe _).mem_iff.mp hc
      have hc3 := List.mem_filter.mp hc2
      have hc4 := List.mem_filter.mp hc3.1
      exact ⟨hc4.1, by simpa using hc4.2, by simpa using hc3.2⟩

/-! ### Claim C6 (post index sort order) -/

/-- Claim C6: the built post index is sorted descending by the `date`
string, and whenever every entry's date is the zero-padded rendering
of a (year, month, day) triple, that order coincides with descending
chronological order on the integer triples. -/
theorem blogpost_index_sorted
    (records : List (DynamicContentType × URL × DynamicContentMetadata))
    (idx : BlogpostIndex) (h : blogpost_indexer records = some idx)
    (f : BlogpostIndexEntry → Nat × Nat × Nat)
    (hf : ∀ e ∈ idx.entries,
      e.date = dateString (f e).1 (f e).2.1 (f e).2.2 ∧
      (f e).1 < 10000 ∧ (f e).2.1 < 100 ∧ (f e).2.2 < 100) :
    List.Sorted dateDesc idx.entries ∧
    List.Sorted (fun a b => chronoLe (f b) (f a)) idx.entries := by
  have hs : List.Sorted dateDesc idx.entries := by
    unfold blogpost_indexer at h
    split at h
    · cases h
    · cases h
      exact List.sorted_insertionSort dateDesc _
  refine ⟨hs, List.Pairwise.imp_of_mem (fun {a b} ha hb hr => ?_) hs⟩
  rcases hf a ha with ⟨hda, hya, hma, hdda⟩
  rcases hf b hb with ⟨hdb, hyb, hmb, hddb⟩
  unfold dateDesc at hr
  rw [hda, hdb] at hr
  exact (dateString_le_iff_chronoLe hyb hmb hddb hya hma hdda).mp hr

/-- Witness for C6: two posts dated `2023/01/05` and `2024/01/01`
index newest-first, sorted both by date string and chronologically. -/
theorem blogpost_index_sorted_w :
    blogpost_indexer recsC6 = some idxC6 ∧
    List.Sorted dateDesc idxC6.entries ∧
    List.Sorted (fun a b => chronoLe (fW b) (fW a)) idxC6.entries := by
  refine ⟨rfl, ?_, ?_⟩
  · exact (blogpost_index_sorted recsC6 idxC6 rfl fW (by decide)).1
  · exact (blogpost_index_sorted recsC6 idxC6 rfl fW (by decide)).2

end Suji
